import Mathlib

/-!
Verification of the Farm_Fusion repository's specification claims.

The FarmCom marketplace (src/FarmCom/app.py) is embedded as explicit state
passing over a `Store` of marketplace items and an append-only transaction
log; SQL statements become pure list operations (a `SELECT ... WHERE id`
is a first-match lookup, an `UPDATE ... WHERE id` maps over all entries
with that id, an `INSERT` appends).  The crop-yield prediction code
(src/Crop_Yield_Prediction/src) is embedded with rationals in place of
floats; scikit-learn's `LabelEncoder` is a sorted, deduplicated class
list, and numpy/pandas percentiles are the linear-interpolation rule
`h = (n-1)·q/100` over the sorted sample.
-/

namespace FarmFusion

/-! ## FarmCom marketplace (src/FarmCom/app.py) -/

/-- A row of the `marketplace_items` table (the columns the purchase and
listing handlers touch).  `quantityAvailable` is an SQL integer, so `Int`. -/
structure Item where
  sellerId : Nat
  itemName : String
  category : String
  price : ℚ
  quantityAvailable : Int
deriving DecidableEq, Repr

/-- A row of the `purchase_transactions` table.  `purchase_item` inserts
without a delivery address (NULL); `process_purchase` supplies one. -/
structure Txn where
  itemId : Nat
  buyerId : Nat
  sellerId : Nat
  quantity : Int
  totalAmount : ℚ
  deliveryAddress : Option String
deriving DecidableEq, Repr

/-- The persistent store: the `marketplace_items` table keyed by id, and the
append-only `purchase_transactions` log. -/
structure Store where
  items : List (Nat × Item)
  transactions : List Txn
deriving DecidableEq, Repr

/-- The query `SELECT ... FROM marketplace_items WHERE id = %s` + `fetchone`:
first row with the given id. -/
def findItem (items : List (Nat × Item)) (itemId : Nat) : Option Item :=
  (items.find? (fun p => p.1 == itemId)).map Prod.snd

/-- The statement `UPDATE marketplace_items SET quantity_available = quantity_available - %s
WHERE id = %s`: a relative decrement applied to every row with that id. -/
def updateQty (items : List (Nat × Item)) (itemId : Nat) (q : Int) :
    List (Nat × Item) :=
  items.map (fun p =>
    if p.1 == itemId then
      (p.1, { p.2 with quantityAvailable := p.2.quantityAvailable - q })
    else p)

/-- Route `purchase_item` (src/FarmCom/app.py lines 986-1028): fetch the item,
check `item[2] >= quantity`, insert a transaction with
`total_amount = quantity * price`, decrement stock.  Returns the new store
and whether the purchase succeeded (the `'Purchase successful!'` flash). -/
def purchaseItem (store : Store) (itemId buyerId : Nat) (quantity : Int) :
    Store × Bool :=
  match findItem store.items itemId with
  | some item =>
    if item.quantityAvailable ≥ quantity then
      ({ items := updateQty store.items itemId quantity,
         transactions := store.transactions ++
           [{ itemId := itemId, buyerId := buyerId, sellerId := item.sellerId,
              quantity := quantity, totalAmount := (quantity : ℚ) * item.price,
              deliveryAddress := none }] }, true)
    else (store, false)
  | none => (store, false)

/-- Route `process_purchase` (src/FarmCom/app.py lines 434-485): same
read-check-insert-decrement sequence as `purchase_item`, with a delivery
address recorded in the transaction.  Returns the new store and the
`success` field of the JSON response. -/
def processPurchase (store : Store) (productId buyerId : Nat) (quantity : Int)
    (deliveryAddress : String) : Store × Bool :=
  match findItem store.items productId with
  | some item =>
    if item.quantityAvailable ≥ quantity then
      ({ items := updateQty store.items productId quantity,
         transactions := store.transactions ++
           [{ itemId := productId, buyerId := buyerId, sellerId := item.sellerId,
              quantity := quantity, totalAmount := (quantity : ℚ) * item.price,
              deliveryAddress := some deliveryAddress }] }, true)
    else (store, false)
  | none => (store, false)

/-- The `category_mapping` dict in `sell_item`. -/
def categoryMapping (category : String) : String :=
  if category = "Grains" then "Grain"
  else if category = "Vegetables" then "Veg"
  else if category = "Fruits" then "Fruit"
  else if category = "Dairy" then "Dairy"
  else if category = "Spices" then "Spice"
  else if category = "Seeds" then "Seed"
  else category

/-- Route `sell_item` (src/FarmCom/app.py lines 489-557): after the category
length check, INSERT a new marketplace item with the submitted quantity
(no sign validation).  Returns the new store and whether the listing was
created. -/
def sellItem (store : Store) (newId sellerId : Nat) (itemName category : String)
    (price : ℚ) (quantity : Int) : Store × Bool :=
  if category.length > 10 then (store, false)
  else
    ({ store with items := store.items ++
        [(newId, { sellerId := sellerId, itemName := itemName,
                   category := categoryMapping category, price := price,
                   quantityAvailable := quantity })] }, true)

/-- Route `edit_listing` (src/FarmCom/app.py lines 595-659): if a row with this id
and seller exists, `UPDATE ... SET ... quantity_available = %s WHERE id = %s
AND seller_id = %s` overwrites the listing with the submitted values (no
sign validation on the quantity). -/
def editListing (store : Store) (listingId userId : Nat)
    (itemName category : String) (price : ℚ) (quantity : Int) : Store :=
  match store.items.find? (fun p => p.1 == listingId && p.2.sellerId == userId) with
  | none => store
  | some _ =>
    { store with items := store.items.map (fun p =>
        if p.1 == listingId && p.2.sellerId == userId then
          (p.1, { p.2 with
                  itemName := itemName
                  category := category
                  price := price
                  quantityAvailable := quantity })
        else p) }

lemma findItem_updateQty (items : List (Nat × Item)) (itemId : Nat) (q : Int) :
    findItem (updateQty items itemId q) itemId =
      (findItem items itemId).map
        (fun it => { it with quantityAvailable := it.quantityAvailable - q }) := by
  induction items with
  | nil => rfl
  | cons p rest ih =>
    by_cases h : p.1 = itemId
    · simp [findItem, updateQty, List.find?_cons, h]
    · have hb : (p.1 == itemId) = false := by simp [h]
      simp only [findItem, updateQty, List.map_cons, List.find?_cons, hb,
        if_neg, Bool.false_eq_true, reduceIte] at *
      exact ih

lemma purchaseItem_eq_of_le (store : Store) (itemId buyerId : Nat) (q : Int)
    (item : Item) (hfind : findItem store.items itemId = some item)
    (hq : q ≤ item.quantityAvailable) :
    purchaseItem store itemId buyerId q =
      ({ items := updateQty store.items itemId q,
         transactions := store.transactions ++
           [{ itemId := itemId, buyerId := buyerId, sellerId := item.sellerId,
              quantity := q, totalAmount := (q : ℚ) * item.price,
              deliveryAddress := none }] }, true) := by
  unfold purchaseItem
  rw [hfind]
  simp [ge_iff_le, hq]

lemma processPurchase_eq_of_le (store : Store) (itemId buyerId : Nat) (q : Int)
    (item : Item) (addr : String)
    (hfind : findItem store.items itemId = some item)
    (hq : q ≤ item.quantityAvailable) :
    processPurchase store itemId buyerId q addr =
      ({ items := updateQty store.items itemId q,
         transactions := store.transactions ++
           [{ itemId := itemId, buyerId := buyerId, sellerId := item.sellerId,
              quantity := q, totalAmount := (q : ℚ) * item.price,
              deliveryAddress := some addr }] }, true) := by
  unfold processPurchase
  rw [hfind]
  simp [ge_iff_le, hq]

lemma purchaseItem_eq_of_gt (store : Store) (itemId buyerId : Nat) (q : Int)
    (item : Item) (hfind : findItem store.items itemId = some item)
    (hq : item.quantityAvailable < q) :
    purchaseItem store itemId buyerId q = (store, false) := by
  unfold purchaseItem
  rw [hfind]
  simp [not_le.mpr hq]

lemma processPurchase_eq_of_gt (store : Store) (itemId buyerId : Nat) (q : Int)
    (item : Item) (addr : String)
    (hfind : findItem store.items itemId = some item)
    (hq : item.quantityAvailable < q) :
    processPurchase store itemId buyerId q addr = (store, false) := by
  unfold processPurchase
  rw [hfind]
  simp [not_le.mpr hq]

/-- C1: for a purchase of `q ≤ quantity_available` against an existing item,
`purchase_item` and `process_purchase` both succeed, the stored quantity
becomes `quantity_available − q`, and exactly one transaction with
`total_amount = q × price` is appended to the log. -/
theorem purchase_sufficient_success (store : Store) (itemId buyerId : Nat)
    (q : Int) (item : Item) (addr : String)
    (hfind : findItem store.items itemId = some item)
    (hq : q ≤ item.quantityAvailable) :
    (purchaseItem store itemId buyerId q).2 = true ∧
    findItem (purchaseItem store itemId buyerId q).1.items itemId =
      some { item with quantityAvailable := item.quantityAvailable - q } ∧
    (purchaseItem store itemId buyerId q).1.transactions =
      store.transactions ++
        [{ itemId := itemId, buyerId := buyerId, sellerId := item.sellerId,
           quantity := q, totalAmount := (q : ℚ) * item.price,
           deliveryAddress := none }] ∧
    (processPurchase store itemId buyerId q addr).2 = true ∧
    findItem (processPurchase store itemId buyerId q addr).1.items itemId =
      some { item with quantityAvailable := item.quantityAvailable - q } ∧
    (processPurchase store itemId buyerId q addr).1.transactions =
      store.transactions ++
        [{ itemId := itemId, buyerId := buyerId, sellerId := item.sellerId,
           quantity := q, totalAmount := (q : ℚ) * item.price,
           deliveryAddress := some addr }] := by
  have h1 := purchaseItem_eq_of_le store itemId buyerId q item hfind hq
  have h2 := processPurchase_eq_of_le store itemId buyerId q item addr hfind hq
  refine ⟨by rw [h1], ?_, by rw [h1], by rw [h2], ?_, by rw [h2]⟩
  · rw [h1]
    simp [findItem_updateQty, hfind]
  · rw [h2]
    simp [findItem_updateQty, hfind]

/-- Witness for `purchase_sufficient_success`: item with stock 5 at price 10,
purchase of 3 units. -/
theorem purchase_sufficient_success_witness :
    findItem [(1, ⟨7, "Rice", "Grain", 10, 5⟩)] 1 =
      some ⟨7, "Rice", "Grain", 10, 5⟩ ∧
    (3 : Int) ≤ (5 : Int) ∧
    ((purchaseItem ⟨[(1, ⟨7, "Rice", "Grain", 10, 5⟩)], []⟩ 1 2 3).2 = true ∧
     findItem (purchaseItem ⟨[(1, ⟨7, "Rice", "Grain", 10, 5⟩)], []⟩ 1 2 3).1.items 1 =
       some { (⟨7, "Rice", "Grain", 10, 5⟩ : Item) with quantityAvailable := 5 - 3 } ∧
     (purchaseItem ⟨[(1, ⟨7, "Rice", "Grain", 10, 5⟩)], []⟩ 1 2 3).1.transactions =
       [] ++ [{ itemId := 1, buyerId := 2, sellerId := 7, quantity := 3,
                totalAmount := (3 : ℚ) * 10, deliveryAddress := none }] ∧
     (processPurchase ⟨[(1, ⟨7, "Rice", "Grain", 10, 5⟩)], []⟩ 1 2 3 "addr").2 = true ∧
     findItem (processPurchase ⟨[(1, ⟨7, "Rice", "Grain", 10, 5⟩)], []⟩ 1 2 3 "addr").1.items 1 =
       some { (⟨7, "Rice", "Grain", 10, 5⟩ : Item) with quantityAvailable := 5 - 3 } ∧
     (processPurchase ⟨[(1, ⟨7, "Rice", "Grain", 10, 5⟩)], []⟩ 1 2 3 "addr").1.transactions =
       [] ++ [{ itemId := 1, buyerId := 2, sellerId := 7, quantity := 3,
                totalAmount := (3 : ℚ) * 10, deliveryAddress := some "addr" }]) :=
  ⟨by decide, by decide,
   purchase_sufficient_success ⟨[(1, ⟨7, "Rice", "Grain", 10, 5⟩)], []⟩ 1 2 3
     ⟨7, "Rice", "Grain", 10, 5⟩ "addr" (by decide) (by decide)⟩

/-- C2: for a purchase of `q > quantity_available` against an existing item,
both purchase handlers report failure and leave the store — stock and
transaction log — completely unchanged. -/
theorem purchase_insufficient_rejected (store : Store) (itemId buyerId : Nat)
    (q : Int) (item : Item) (addr : String)
    (hfind : findItem store.items itemId = some item)
    (hq : item.quantityAvailable < q) :
    (purchaseItem store itemId buyerId q).2 = false ∧
    (purchaseItem store itemId buyerId q).1 = store ∧
    (processPurchase store itemId buyerId q addr).2 = false ∧
    (processPurchase store itemId buyerId q addr).1 = store := by
  have h1 := purchaseItem_eq_of_gt store itemId buyerId q item hfind hq
  have h2 := processPurchase_eq_of_gt store itemId buyerId q item addr hfind hq
  exact ⟨by rw [h1], by rw [h1], by rw [h2], by rw [h2]⟩

/-- Witness for `purchase_insufficient_rejected`: item with stock 2,
purchase of 3 units. -/
theorem purchase_insufficient_rejected_witness :
    findItem [(1, ⟨7, "Rice", "Grain", 10, 2⟩)] 1 =
      some ⟨7, "Rice", "Grain", 10, 2⟩ ∧
    (2 : Int) < 3 ∧
    ((purchaseItem ⟨[(1, ⟨7, "Rice", "Grain", 10, 2⟩)], []⟩ 1 2 3).2 = false ∧
     (purchaseItem ⟨[(1, ⟨7, "Rice", "Grain", 10, 2⟩)], []⟩ 1 2 3).1 =
       ⟨[(1, ⟨7, "Rice", "Grain", 10, 2⟩)], []⟩ ∧
     (processPurchase ⟨[(1, ⟨7, "Rice", "Grain", 10, 2⟩)], []⟩ 1 2 3 "addr").2 = false ∧
     (processPurchase ⟨[(1, ⟨7, "Rice", "Grain", 10, 2⟩)], []⟩ 1 2 3 "addr").1 =
       ⟨[(1, ⟨7, "Rice", "Grain", 10, 2⟩)], []⟩) :=
  ⟨by decide, by decide,
   purchase_insufficient_rejected ⟨[(1, ⟨7, "Rice", "Grain", 10, 2⟩)], []⟩ 1 2 3
     ⟨7, "Rice", "Grain", 10, 2⟩ "addr" (by decide) (by decide)⟩

/-- C10: the sufficiency check `item[2] >= quantity` accepts exactly the
requests with `q ≤ quantity_available`, with no lower bound on `q`; so
against an item with nonnegative stock every request with `q ≤ 0`
succeeds, appends a transaction, and sets the stock to
`quantity_available − q`, which is ≥ the stock before (a negative `q`
increases stock). -/
theorem purchase_nonpositive_accepted (store : Store) (itemId buyerId : Nat)
    (q : Int) (item : Item)
    (hfind : findItem store.items itemId = some item) :
    ((purchaseItem store itemId buyerId q).2 = true ↔
      q ≤ item.quantityAvailable) ∧
    (0 ≤ item.quantityAvailable → q ≤ 0 →
      (purchaseItem store itemId buyerId q).2 = true ∧
      findItem (purchaseItem store itemId buyerId q).1.items itemId =
        some { item with quantityAvailable := item.quantityAvailable - q } ∧
      (purchaseItem store itemId buyerId q).1.transactions =
        store.transactions ++
          [{ itemId := itemId, buyerId := buyerId, sellerId := item.sellerId,
             quantity := q, totalAmount := (q : ℚ) * item.price,
             deliveryAddress := none }] ∧
      item.quantityAvailable ≤ item.quantityAvailable - q) := by
  constructor
  · constructor
    · intro hres
      by_contra hgt
      have hlt : item.quantityAvailable < q := not_le.mp hgt
      have h1 := purchaseItem_eq_of_gt store itemId buyerId q item hfind hlt
      rw [h1] at hres
      exact Bool.false_ne_true hres
    · intro hq
      rw [purchaseItem_eq_of_le store itemId buyerId q item hfind hq]
  · intro hpos hq0
    have hq : q ≤ item.quantityAvailable := le_trans hq0 hpos
    have h1 := purchaseItem_eq_of_le store itemId buyerId q item hfind hq
    refine ⟨by rw [h1], ?_, by rw [h1], by omega⟩
    rw [h1]
    simp [findItem_updateQty, hfind]

/-- Witness for `purchase_nonpositive_accepted`: purchase of −3 units against
an item with stock 5 succeeds and raises the stock to 8. -/
theorem purchase_nonpositive_accepted_witness :
    findItem [(1, ⟨7, "Rice", "Grain", 10, 5⟩)] 1 =
      some ⟨7, "Rice", "Grain", 10, 5⟩ ∧
    (((purchaseItem ⟨[(1, ⟨7, "Rice", "Grain", 10, 5⟩)], []⟩ 1 2 (-3)).2 = true ↔
       (-3 : Int) ≤ 5) ∧
     ((0 : Int) ≤ 5 → (-3 : Int) ≤ 0 →
       (purchaseItem ⟨[(1, ⟨7, "Rice", "Grain", 10, 5⟩)], []⟩ 1 2 (-3)).2 = true ∧
       findItem (purchaseItem ⟨[(1, ⟨7, "Rice", "Grain", 10, 5⟩)], []⟩ 1 2 (-3)).1.items 1 =
         some { (⟨7, "Rice", "Grain", 10, 5⟩ : Item) with quantityAvailable := 5 - (-3) } ∧
       (purchaseItem ⟨[(1, ⟨7, "Rice", "Grain", 10, 5⟩)], []⟩ 1 2 (-3)).1.transactions =
         [] ++ [{ itemId := 1, buyerId := 2, sellerId := 7, quantity := -3,
                  totalAmount := ((-3 : Int) : ℚ) * 10, deliveryAddress := none }] ∧
       (5 : Int) ≤ 5 - (-3))) :=
  ⟨by decide,
   purchase_nonpositive_accepted ⟨[(1, ⟨7, "Rice", "Grain", 10, 5⟩)], []⟩ 1 2 (-3)
     ⟨7, "Rice", "Grain", 10, 5⟩ (by decide)⟩

/-- The marketplace invariant: every stored item has nonnegative stock. -/
def ItemsNonneg (items : List (Nat × Item)) : Prop :=
  ∀ p ∈ items, 0 ≤ p.2.quantityAvailable

instance (items : List (Nat × Item)) : Decidable (ItemsNonneg items) :=
  inferInstanceAs (Decidable (∀ p ∈ items, 0 ≤ p.2.quantityAvailable))

lemma findItem_of_mem_nodup (items : List (Nat × Item))
    (hnd : (items.map Prod.fst).Nodup) (p : Nat × Item) (hp : p ∈ items) :
    findItem items p.1 = some p.2 := by
  induction items with
  | nil => cases hp
  | cons a rest ih =>
    rcases List.mem_cons.mp hp with rfl | hmem
    · simp [findItem, List.find?_cons]
    · have hne : a.1 ≠ p.1 := by
        intro heq
        have : a.1 ∈ rest.map Prod.fst := heq ▸ List.mem_map_of_mem Prod.fst hmem
        exact (List.nodup_cons.mp hnd).1 this
      have hb : (a.1 == p.1) = false := by simp [hne]
      simp only [findItem, List.find?_cons, hb]
      exact ih (List.nodup_cons.mp hnd).2 hmem

/-- Counterexample to C3: `sell_item` and `edit_listing` write the submitted
quantity without any sign check, so a single listing creation (or edit)
starting from a store satisfying the invariant produces an item with
negative `quantity_available`. -/
theorem listing_negative_stock_counterexample :
    (findItem (sellItem ⟨[], []⟩ 1 7 "Tomatoes" "Veg" 5 (-1)).1.items 1 =
       some ⟨7, "Tomatoes", "Veg", 5, -1⟩ ∧
     ¬ ItemsNonneg (sellItem ⟨[], []⟩ 1 7 "Tomatoes" "Veg" 5 (-1)).1.items) ∧
    (findItem
       (editListing ⟨[(1, ⟨7, "Rice", "Grain", 10, 5⟩)], []⟩ 1 7 "Rice" "Grain"
         10 (-2)).items 1 = some ⟨7, "Rice", "Grain", 10, -2⟩ ∧
     ¬ ItemsNonneg
       (editListing ⟨[(1, ⟨7, "Rice", "Grain", 10, 5⟩)], []⟩ 1 7 "Rice" "Grain"
         10 (-2)).items) := by
  decide

/-- C3 amended: the purchase handler does preserve `quantity_available ≥ 0`
(on a store whose item ids are unique, as the database primary key
guarantees), but listing creation and listing edit preserve it only when
the submitted quantity is itself nonnegative — they perform no validation. -/
theorem mutations_preserve_nonneg_amended :
    (∀ (store : Store) (itemId buyerId : Nat) (q : Int),
        (store.items.map Prod.fst).Nodup → ItemsNonneg store.items →
        ItemsNonneg (purchaseItem store itemId buyerId q).1.items) ∧
    (∀ (store : Store) (newId sellerId : Nat) (nm cat : String) (pr : ℚ)
        (qty : Int), 0 ≤ qty → ItemsNonneg store.items →
        ItemsNonneg (sellItem store newId sellerId nm cat pr qty).1.items) ∧
    (∀ (store : Store) (listingId userId : Nat) (nm cat : String) (pr : ℚ)
        (qty : Int), 0 ≤ qty → ItemsNonneg store.items →
        ItemsNonneg (editListing store listingId userId nm cat pr qty).items) := by
  refine ⟨?_, ?_, ?_⟩
  · intro store itemId buyerId q hnd hnn
    unfold purchaseItem
    cases hfind : findItem store.items itemId with
    | none => exact hnn
    | some item =>
      by_cases hge : item.quantityAvailable ≥ q
      · simp only [hge, if_pos]
        intro p hp
        rcases List.mem_map.mp hp with ⟨p₀, hp₀, rfl⟩
        by_cases hid : p₀.1 = itemId
        · have : findItem store.items p₀.1 = some p₀.2 :=
            findItem_of_mem_nodup store.items hnd p₀ hp₀
          rw [hid, hfind] at this
          have hitem : p₀.2 = item := Option.some_injective _ this.symm
          have hb : (p₀.1 == itemId) = true := by simp [hid]
          simp only [hb, if_pos]
          simp only [hitem]
          omega
        · have hb : (p₀.1 == itemId) = false := by simp [hid]
          simp only [hb, Bool.false_eq_true, if_neg, reduceIte]
          exact hnn p₀ hp₀
      · simp only [hge, Bool.false_eq_true, if_neg, reduceIte]
        exact hnn
  · intro store newId sellerId nm cat pr qty hqty hnn
    unfold sellItem
    by_cases hlen : cat.length > 10
    · simp only [hlen, if_pos]
      exact hnn
    · simp only [hlen, if_neg, reduceIte]
      intro p hp
      rcases List.mem_append.mp hp with hmem | hmem
      · exact hnn p hmem
      · rcases List.mem_singleton.mp hmem with rfl
        exact hqty
  · intro store listingId userId nm cat pr qty hqty hnn
    unfold editListing
    cases store.items.find? (fun p => p.1 == listingId && p.2.sellerId == userId) with
    | none => exact hnn
    | some q₀ =>
      intro p hp
      rcases List.mem_map.mp hp with ⟨p₀, hp₀, rfl⟩
      by_cases hmatch : (p₀.1 == listingId && p₀.2.sellerId == userId) = true
      · simp only [hmatch, if_pos]
        exact hqty
      · simp only [hmatch, Bool.false_eq_true, if_neg, reduceIte]
        exact hnn p₀ hp₀

/-- Witness for `mutations_preserve_nonneg_amended`: concrete nonnegative
stores stay nonnegative under a purchase, a listing creation, and an edit. -/
theorem mutations_preserve_nonneg_amended_witness :
    ItemsNonneg
      (purchaseItem ⟨[(1, ⟨7, "Rice", "Grain", 10, 5⟩)], []⟩ 1 2 1).1.items ∧
    ItemsNonneg (sellItem ⟨[], []⟩ 1 7 "Corn" "Grain" 4 3).1.items ∧
    ItemsNonneg
      (editListing ⟨[(1, ⟨7, "Rice", "Grain", 10, 5⟩)], []⟩ 1 7 "Rice" "Grain"
        10 2).items :=
  ⟨mutations_preserve_nonneg_amended.1 ⟨[(1, ⟨7, "Rice", "Grain", 10, 5⟩)], []⟩
     1 2 1 (by decide) (by decide),
   mutations_preserve_nonneg_amended.2.1 ⟨[], []⟩ 1 7 "Corn" "Grain" 4 3
     (by decide) (by decide),
   mutations_preserve_nonneg_amended.2.2 ⟨[(1, ⟨7, "Rice", "Grain", 10, 5⟩)], []⟩
     1 7 "Rice" "Grain" 10 2 (by decide) (by decide)⟩

/-! ### Concurrency model for the purchase handler

`purchase_item` issues its SQL statements one at a time: the `SELECT` that
reads the item is one statement, and the check + `INSERT` + relative-
decrement `UPDATE` + `COMMIT` happen afterwards, with the check evaluated
in Python against the previously fetched snapshot.  Interleaved executions
of the handler are modelled as schedules over two atomic steps per call:
`readStep` (the SELECT, taking the snapshot) and `applyStep` (the check
against the snapshot followed by the insert and the relative decrement
applied to the current store, as `SET quantity_available =
quantity_available - %s` does). -/

/-- The arguments of one in-flight `purchase_item` request. -/
structure PurchaseCall where
  itemId : Nat
  buyerId : Nat
  quantity : Int
deriving DecidableEq, Repr

/-- Per-request local state: the fetched snapshot (once read) and the
outcome (once decided). -/
structure ProcState where
  snapshot : Option (Option Item)
  result : Option Bool
deriving DecidableEq, Repr

/-- The two atomic database steps of a purchase request. -/
inductive DbStep where
  | readStep : DbStep
  | applyStep : DbStep
deriving DecidableEq, Repr

/-- Execute one step of one purchase request against the shared store. -/
def stepPurchase (store : Store) (call : PurchaseCall) (ps : ProcState) :
    DbStep → Store × ProcState
  | .readStep =>
    match ps.snapshot with
    | none => (store, { ps with snapshot := some (findItem store.items call.itemId) })
    | some _ => (store, ps)
  | .applyStep =>
    match ps.snapshot, ps.result with
    | some (some item), none =>
      if item.quantityAvailable ≥ call.quantity then
        ({ items := updateQty store.items call.itemId call.quantity,
           transactions := store.transactions ++
             [{ itemId := call.itemId, buyerId := call.buyerId,
                sellerId := item.sellerId, quantity := call.quantity,
                totalAmount := (call.quantity : ℚ) * item.price,
                deliveryAddress := none }] },
         { ps with result := some true })
      else (store, { ps with result := some false })
    | some none, none => (store, { ps with result := some false })
    | _, _ => (store, ps)

/-- Run one scheduled event `(request index, step)`. -/
def schedStep (calls : List PurchaseCall) (acc : Store × List ProcState)
    (ev : Nat × DbStep) : Store × List ProcState :=
  match calls[ev.1]?, acc.2[ev.1]? with
  | some call, some ps =>
    let next := stepPurchase acc.1 call ps ev.2
    (next.1, acc.2.set ev.1 next.2)
  | _, _ => acc

/-- Run a whole schedule of interleaved purchase requests from an initial
store, every request starting with no snapshot and no result. -/
def runSchedule (calls : List PurchaseCall) (sched : List (Nat × DbStep))
    (store : Store) : Store × List ProcState :=
  sched.foldl (schedStep calls) (store, List.replicate calls.length ⟨none, none⟩)

/-- C4 (refuting the claimed atomicity): two interleaved purchases of
quantity 1 against an item with stock 1 — both `SELECT`s before either
check/decrement — BOTH succeed, two transactions are inserted, and the
stock is driven to −1.  The claim requires exactly one success and stock
never negative; the handler's read-check-decrement-insert sequence is not
one indivisible unit. -/
theorem purchase_race_oversells :
    (runSchedule [⟨1, 2, 1⟩, ⟨1, 3, 1⟩]
        [(0, .readStep), (1, .readStep), (0, .applyStep), (1, .applyStep)]
        ⟨[(1, ⟨9, "Rice", "Grain", 10, 1⟩)], []⟩).2.map ProcState.result =
      [some true, some true] ∧
    findItem
      (runSchedule [⟨1, 2, 1⟩, ⟨1, 3, 1⟩]
        [(0, .readStep), (1, .readStep), (0, .applyStep), (1, .applyStep)]
        ⟨[(1, ⟨9, "Rice", "Grain", 10, 1⟩)], []⟩).1.items 1 =
      some ⟨9, "Rice", "Grain", 10, -1⟩ ∧
    (runSchedule [⟨1, 2, 1⟩, ⟨1, 3, 1⟩]
        [(0, .readStep), (1, .readStep), (0, .applyStep), (1, .applyStep)]
        ⟨[(1, ⟨9, "Rice", "Grain", 10, 1⟩)], []⟩).1.transactions.length = 2 ∧
    (-1 : Int) < 0 := by
  decide

/-! ## Crop yield prediction: categorical encoding
(src/Crop_Yield_Prediction/src/data_preprocessing.py) -/

/-- scikit-learn `LabelEncoder` state: `classes_`, the sorted distinct
labels seen at fit time. -/
structure LabelEncoder where
  classes : List String
deriving DecidableEq, Repr

/-- Lexicographic comparison of strings by code point, the order
`np.unique` sorts labels in. -/
def charListLe : List Char → List Char → Bool
  | [], _ => true
  | _ :: _, [] => false
  | a :: as, b :: bs =>
    if a.toNat < b.toNat then true
    else if b.toNat < a.toNat then false
    else charListLe as bs

def strLe (a b : String) : Bool := charListLe a.data b.data

/-- The `LabelEncoder.fit` class assignment (`np.unique`): sort, drop
duplicates. -/
def fitLabelEncoder (labels : List String) : LabelEncoder :=
  ⟨(labels.insertionSort (fun a b => strLe a b = true)).dedup⟩

def indexOfLabel : List String → String → Nat → Option Nat
  | [], _, _ => none
  | c :: cs, l, i => if c = l then some i else indexOfLabel cs l (i + 1)

/-- The `LabelEncoder.transform` of on one label: its index in `classes_`, or
`none` for the `ValueError` raised on an unseen label. -/
def LabelEncoder.transform (e : LabelEncoder) (label : String) : Option Nat :=
  indexOfLabel e.classes label 0

/-- The `DataPreprocessor` encoder state: the three label encoders and the
`is_fitted` flag. -/
structure Preprocessor where
  cropEncoder : LabelEncoder
  stateEncoder : LabelEncoder
  seasonEncoder : LabelEncoder
  isFitted : Bool
deriving DecidableEq, Repr

/-- Method `DataPreprocessor.encode_single_prediction`: each `transform` call is
wrapped in `try/except ValueError` defaulting to code 0; the season is
encoded only when supplied and non-empty (Python's `if season:`).  The
function is total: no input makes it fail. -/
def encodeSinglePrediction (pre : Preprocessor) (crop state : String)
    (season : Option String) : Nat × Nat × Nat :=
  let cropCode := (pre.cropEncoder.transform crop).getD 0
  let stateCode := (pre.stateEncoder.transform state).getD 0
  let seasonCode :=
    match season with
    | none => 0
    | some s => if s.isEmpty then 0 else (pre.seasonEncoder.transform s).getD 0
  (cropCode, stateCode, seasonCode)

lemma indexOfLabel_isSome_iff (l : String) :
    ∀ (cs : List String) (i : Nat), (indexOfLabel cs l i).isSome ↔ l ∈ cs := by
  intro cs
  induction cs with
  | nil => intro i; simp [indexOfLabel]
  | cons c cs ih =>
    intro i
    by_cases h : c = l
    · simp [indexOfLabel, h]
    · simp [indexOfLabel, h, ih (i + 1), Ne.symm h]

lemma transform_eq_none_of_not_mem (e : LabelEncoder) (l : String)
    (h : l ∉ e.classes) : e.transform l = none := by
  have := (indexOfLabel_isSome_iff l e.classes 0).not.mpr h
  cases heq : e.transform l with
  | none => rfl
  | some c =>
    exact absurd (by simp [LabelEncoder.transform] at heq; simp [heq]) this

lemma mem_fitLabelEncoder (L : String) (labels : List String) :
    L ∈ (fitLabelEncoder labels).classes ↔ L ∈ labels := by
  unfold fitLabelEncoder
  rw [List.mem_dedup]
  exact (List.perm_insertionSort (fun a b => strLe a b = true) labels).mem_iff

/-- C5: the fitted classes are exactly the labels seen at fit time, and for
any label absent from the fitted classes `encode_single_prediction`
returns the sentinel code 0 in the corresponding component — for crop,
state, and season alike — instead of failing (the embedding is a total
function, mirroring the `try/except ValueError` fallback). -/
theorem encode_unseen_sentinel (pre : Preprocessor) (crop state : String)
    (season : Option String) :
    (∀ (L : String) (labels : List String),
        L ∈ (fitLabelEncoder labels).classes ↔ L ∈ labels) ∧
    (crop ∉ pre.cropEncoder.classes →
      (encodeSinglePrediction pre crop state season).1 = 0) ∧
    (state ∉ pre.stateEncoder.classes →
      (encodeSinglePrediction pre crop state season).2.1 = 0) ∧
    (∀ s, season = some s → s ∉ pre.seasonEncoder.classes →
      (encodeSinglePrediction pre crop state season).2.2 = 0) := by
  refine ⟨mem_fitLabelEncoder, ?_, ?_, ?_⟩
  · intro h
    simp [encodeSinglePrediction, transform_eq_none_of_not_mem _ _ h]
  · intro h
    simp [encodeSinglePrediction, transform_eq_none_of_not_mem _ _ h]
  · intro s hs h
    subst hs
    by_cases he : s.isEmpty
    · simp [encodeSinglePrediction, he]
    · simp [encodeSinglePrediction, he, transform_eq_none_of_not_mem _ _ h]

/-- Witness for `encode_unseen_sentinel`: encoder fitted on
`["Rice", "Wheat"]`; the unseen labels "Maize", "Delhi" and "Summer" all
encode to 0. -/
theorem encode_unseen_sentinel_witness :
    (∀ (L : String) (labels : List String),
        L ∈ (fitLabelEncoder labels).classes ↔ L ∈ labels) ∧
    (encodeSinglePrediction
        ⟨⟨["Rice", "Wheat"]⟩, ⟨["Assam"]⟩, ⟨["Kharif"]⟩, true⟩
        "Maize" "Delhi" (some "Summer")).1 = 0 ∧
    (encodeSinglePrediction
        ⟨⟨["Rice", "Wheat"]⟩, ⟨["Assam"]⟩, ⟨["Kharif"]⟩, true⟩
        "Maize" "Delhi" (some "Summer")).2.1 = 0 ∧
    (encodeSinglePrediction
        ⟨⟨["Rice", "Wheat"]⟩, ⟨["Assam"]⟩, ⟨["Kharif"]⟩, true⟩
        "Maize" "Delhi" (some "Summer")).2.2 = 0 :=
  have h := encode_unseen_sentinel
    ⟨⟨["Rice", "Wheat"]⟩, ⟨["Assam"]⟩, ⟨["Kharif"]⟩, true⟩
    "Maize" "Delhi" (some "Summer")
  ⟨h.1, h.2.1 (by decide), h.2.2.1 (by decide),
   h.2.2.2 "Summer" rfl (by decide)⟩

/-! ### Batch encoding (`encode_categorical_features`, `prepare_features`) -/

/-- Traversal of a whole column with the fitted encoder: `none` models the
`ValueError` that escapes `LabelEncoder.transform` when any label of the
column is unseen. -/
def transformAll (e : LabelEncoder) : List String → Option (List Nat)
  | [] => some []
  | l :: ls =>
    match e.transform l, transformAll e ls with
    | some c, some cs => some (c :: cs)
    | _, _ => none

/-- The fitted branch of `DataPreprocessor.encode_categorical_features` for
one column: `encoder.transform(column)` guarded by `except ValueError:
column = 0` — on any unseen label the whole column is assigned the scalar
0, which pandas broadcasts to every row. -/
def transformColumn (e : LabelEncoder) (col : List String) : List Nat :=
  match transformAll e col with
  | some codes => codes
  | none => List.replicate col.length 0

/-- A row of a batch-prediction CSV; the `season` field is meaningful only
when the table's season column is present. -/
structure BatchRow where
  crop : String
  state : String
  season : String
  area : ℚ
  production : ℚ
  rainfall : ℚ
  fertilizer : ℚ
  pesticide : ℚ
deriving DecidableEq, Repr, Inhabited

/-- A batch-prediction table: whether the optional `Season` column exists,
and the data rows. -/
structure BatchTable where
  hasSeason : Bool
  rows : List BatchRow
deriving DecidableEq, Repr

/-- The encoded table: the original data plus the added `*_Encoded`
columns (`Season_Encoded` only when the season column exists). -/
structure EncodedTable where
  base : BatchTable
  cropCodes : List Nat
  stateCodes : List Nat
  seasonCodes : Option (List Nat)
deriving DecidableEq, Repr

/-- Method `DataPreprocessor.encode_categorical_features`: fit-and-transform when
not yet fitted, otherwise transform with the column-wide `ValueError`
fallback. -/
def encodeCategoricalFeatures (pre : Preprocessor) (t : BatchTable) :
    Preprocessor × EncodedTable :=
  if pre.isFitted then
    (pre,
     { base := t
       cropCodes := transformColumn pre.cropEncoder (t.rows.map BatchRow.crop)
       stateCodes := transformColumn pre.stateEncoder (t.rows.map BatchRow.state)
       seasonCodes :=
         if t.hasSeason then
           some (transformColumn pre.seasonEncoder (t.rows.map BatchRow.season))
         else none })
  else
    let ce := fitLabelEncoder (t.rows.map BatchRow.crop)
    let se := fitLabelEncoder (t.rows.map BatchRow.state)
    let sse :=
      if t.hasSeason then fitLabelEncoder (t.rows.map BatchRow.season)
      else pre.seasonEncoder
    ({ cropEncoder := ce, stateEncoder := se, seasonEncoder := sse,
       isFitted := true },
     { base := t
       cropCodes := transformColumn ce (t.rows.map BatchRow.crop)
       stateCodes := transformColumn se (t.rows.map BatchRow.state)
       seasonCodes :=
         if t.hasSeason then
           some (transformColumn sse (t.rows.map BatchRow.season))
         else none })

/-- The fixed feature list of `DataPreprocessor.prepare_features`. -/
def baseFeatureNames : List String :=
  ["Crop_Encoded", "State_Encoded", "Area", "Production", "Annual_Rainfall",
   "Fertilizer", "Pesticide"]

/-- The `prepare_features` column selection: the seven base features, plus
`Season_Encoded` exactly when that column was produced. -/
def availableFeatureNames (hasSeasonEncoded : Bool) : List String :=
  baseFeatureNames ++ (if hasSeasonEncoded then ["Season_Encoded"] else [])

/-- One row's feature vector in `prepare_features` order. -/
def rowFeatures (r : BatchRow) (cropCode stateCode : Nat)
    (seasonCode : Option Nat) : List ℚ :=
  [(cropCode : ℚ), (stateCode : ℚ), r.area, r.production, r.rainfall,
   r.fertilizer, r.pesticide] ++
    (match seasonCode with | some c => [(c : ℚ)] | none => [])

/-- The feature matrix handed to `model.predict` in
`YieldPredictor.predict_batch`. -/
def prepareFeatureMatrix (et : EncodedTable) : List (List ℚ) :=
  (List.range et.base.rows.length).map (fun i =>
    rowFeatures (et.base.rows.getD i default) (et.cropCodes.getD i 0)
      (et.stateCodes.getD i 0) (et.seasonCodes.map (fun cs => cs.getD i 0)))

/-- Method `YieldPredictor.predict_batch` with a loaded model: encode, prepare
features, predict per row. -/
def predictBatch (model : List ℚ → ℚ) (pre : Preprocessor) (t : BatchTable) :
    List ℚ :=
  (prepareFeatureMatrix (encodeCategoricalFeatures pre t).2).map model

lemma transformAll_of_all_mem (e : LabelEncoder) (col : List String)
    (h : ∀ l ∈ col, l ∈ e.classes) :
    transformAll e col = some (col.map (fun l => (e.transform l).getD 0)) := by
  induction col with
  | nil => rfl
  | cons l ls ih =>
    have hl : (e.transform l).isSome :=
      (indexOfLabel_isSome_iff l e.classes 0).mpr (h l (List.mem_cons_self l ls))
    obtain ⟨c, hc⟩ := Option.isSome_iff_exists.mp hl
    have hrest := ih (fun x hx => h x (List.mem_cons_of_mem l hx))
    simp [transformAll, hc, hrest]

lemma transformAll_of_unseen (e : LabelEncoder) (col : List String)
    (h : ∃ l ∈ col, l ∉ e.classes) : transformAll e col = none := by
  induction col with
  | nil => simp at h
  | cons l ls ih =>
    rcases h with ⟨x, hx, hnot⟩
    rcases List.mem_cons.mp hx with rfl | hmem
    · have := transform_eq_none_of_not_mem e x hnot
      simp [transformAll, this]
    · have := ih ⟨x, hmem, hnot⟩
      simp only [transformAll, this]
      cases e.transform l <;> rfl

/-- C6 counterexample: encoder fitted on `["Rice", "Wheat"]`; the batch
column `["Wheat", "Maize"]` is encoded `[0, 0]` — the single unseen label
"Maize" resets "Wheat"'s code too — while per-row single-record encoding
gives `[1, 0]`.  Batch encoding is NOT the same per-row encoding. -/
theorem batch_encoding_counterexample :
    transformColumn (fitLabelEncoder ["Rice", "Wheat"]) ["Wheat", "Maize"] =
      [0, 0] ∧
    ["Wheat", "Maize"].map
      (fun l => ((fitLabelEncoder ["Rice", "Wheat"]).transform l).getD 0) =
      [1, 0] ∧
    transformColumn (fitLabelEncoder ["Rice", "Wheat"]) ["Wheat", "Maize"] ≠
      ["Wheat", "Maize"].map
        (fun l => ((fitLabelEncoder ["Rice", "Wheat"]).transform l).getD 0) := by
  decide

/-- C6 amended: batch encoding agrees with per-row single-record encoding
exactly when every label of the column was seen at fit time; as soon as
one label is unseen, the entire column collapses to the sentinel 0 (not
just the unseen row).  A table lacking the optional season column does
omit `Season_Encoded`, leaving the seven base features. -/
theorem batch_encoding_amended (e : LabelEncoder) (col : List String) :
    ((∀ l ∈ col, l ∈ e.classes) →
      transformColumn e col = col.map (fun l => (e.transform l).getD 0)) ∧
    ((∃ l ∈ col, l ∉ e.classes) →
      transformColumn e col = List.replicate col.length 0) ∧
    availableFeatureNames false = baseFeatureNames := by
  refine ⟨?_, ?_, by simp [availableFeatureNames]⟩
  · intro h
    simp [transformColumn, transformAll_of_all_mem e col h]
  · intro h
    simp [transformColumn, transformAll_of_unseen e col h]

/-- Witness for `batch_encoding_amended`: an all-seen column keeps per-row
codes, a column with the unseen "Maize" collapses to zeros. -/
theorem batch_encoding_amended_witness :
    transformColumn ⟨["Rice", "Wheat"]⟩ ["Wheat", "Rice"] =
      ["Wheat", "Rice"].map
        (fun l => (LabelEncoder.transform ⟨["Rice", "Wheat"]⟩ l).getD 0) ∧
    transformColumn ⟨["Rice", "Wheat"]⟩ ["Rice", "Maize"] =
      List.replicate (["Rice", "Maize"].length) 0 ∧
    availableFeatureNames false = baseFeatureNames :=
  ⟨(batch_encoding_amended ⟨["Rice", "Wheat"]⟩ ["Wheat", "Rice"]).1 (by decide),
   (batch_encoding_amended ⟨["Rice", "Wheat"]⟩ ["Rice", "Maize"]).2.1
     ⟨"Maize", by decide, by decide⟩,
   (batch_encoding_amended ⟨["Rice", "Wheat"]⟩ []).2.2⟩

/-! ## Confidence intervals
(`YieldPredictor.predict_with_confidence`,
src/Crop_Yield_Prediction/src/model_prediction.py lines 187-260) -/

/-- Linear interpolation at fractional index `h` into a (sorted) sample —
numpy's default percentile rule: `a[⌊h⌋] + (h − ⌊h⌋)·(a[⌈h⌉] − a[⌊h⌋])`. -/
def interpAt (s : List ℚ) (h : ℚ) : ℚ :=
  s.getD (⌊h⌋).toNat 0 +
    (h - ((⌊h⌋).toNat : ℚ)) * (s.getD (⌈h⌉).toNat 0 - s.getD (⌊h⌋).toNat 0)

/-- Numpy `np.percentile(a, q)`: sort the sample, interpolate at
`h = (n−1)·q/100`. -/
def npPercentile (l : List ℚ) (q : ℚ) : ℚ :=
  interpAt (l.insertionSort (· ≤ ·)) (((l.length : ℚ) - 1) * q / 100)

/-- Numpy `np.mean`. -/
def npMean (l : List ℚ) : ℚ := l.sum / l.length

/-- An ensemble model as `predict_with_confidence` sees it: the
`estimators_` attribute, each sub-estimator predicting from the feature
vector. -/
structure EnsembleModel where
  estimators : List (List ℚ → ℚ)

/-- The per-sub-estimator predictions gathered by the loop in
`predict_with_confidence`. -/
def ensemblePredictions (m : EnsembleModel) (features : List ℚ) : List ℚ :=
  m.estimators.map (fun est => est features)

/-- The `predict_with_confidence` statistics: (mean prediction, 2.5th
percentile lower bound, 97.5th percentile upper bound). -/
def predictWithConfidence (m : EnsembleModel) (features : List ℚ) :
    ℚ × ℚ × ℚ :=
  (npMean (ensemblePredictions m features),
   npPercentile (ensemblePredictions m features) (5 / 2),
   npPercentile (ensemblePredictions m features) (195 / 2))

lemma sorted_getD_mono (s : List ℚ) (hs : s.Sorted (· ≤ ·)) (i j : ℕ)
    (hij : i ≤ j) (hj : j < s.length) : s.getD i 0 ≤ s.getD j 0 := by
  have hi : i < s.length := lt_of_le_of_lt hij hj
  rw [List.getD_eq_getElem s 0 hi, List.getD_eq_getElem s 0 hj]
  have := hs.rel_get_of_le (a := ⟨i, hi⟩) (b := ⟨j, hj⟩) hij
  simpa [List.get_eq_getElem] using this

lemma floor_toNat_cast_eq (h : ℚ) (h0 : 0 ≤ h) :
    (((⌊h⌋).toNat : ℚ)) = ((⌊h⌋ : ℤ) : ℚ) := by
  have : (0 : ℤ) ≤ ⌊h⌋ := Int.floor_nonneg.mpr h0
  exact_mod_cast congrArg (fun z => ((z : ℤ) : ℚ)) (Int.toNat_of_nonneg this)

lemma interpAt_frac_nonneg (h : ℚ) (h0 : 0 ≤ h) :
    0 ≤ h - ((⌊h⌋).toNat : ℚ) := by
  rw [floor_toNat_cast_eq h h0]
  have := Int.floor_le h
  linarith

lemma interpAt_frac_le_one (h : ℚ) (h0 : 0 ≤ h) :
    h - ((⌊h⌋).toNat : ℚ) ≤ 1 := by
  rw [floor_toNat_cast_eq h h0]
  have := Int.lt_floor_add_one h
  push_cast at this ⊢
  linarith

lemma interpAt_ge_lo (s : List ℚ) (hs : s.Sorted (· ≤ ·)) (h : ℚ)
    (h0 : 0 ≤ h) (hhi : (⌈h⌉).toNat < s.length) :
    s.getD (⌊h⌋).toNat 0 ≤ interpAt s h := by
  unfold interpAt
  have hfl : (⌊h⌋).toNat ≤ (⌈h⌉).toNat :=
    Int.toNat_le_toNat (Int.floor_le_ceil h)
  have hle := sorted_getD_mono s hs _ _ hfl hhi
  nlinarith [interpAt_frac_nonneg h h0]

lemma interpAt_le_hi (s : List ℚ) (hs : s.Sorted (· ≤ ·)) (h : ℚ)
    (h0 : 0 ≤ h) (hhi : (⌈h⌉).toNat < s.length) :
    interpAt s h ≤ s.getD (⌈h⌉).toNat 0 := by
  unfold interpAt
  have hfl : (⌊h⌋).toNat ≤ (⌈h⌉).toNat :=
    Int.toNat_le_toNat (Int.floor_le_ceil h)
  have hle := sorted_getD_mono s hs _ _ hfl hhi
  nlinarith [interpAt_frac_nonneg h h0, interpAt_frac_le_one h h0]

lemma interpAt_mono (s : List ℚ) (hs : s.Sorted (· ≤ ·)) (h₁ h₂ : ℚ)
    (h0 : 0 ≤ h₁) (h12 : h₁ ≤ h₂) (hub : (⌈h₂⌉).toNat < s.length) :
    interpAt s h₁ ≤ interpAt s h₂ := by
  have h0₂ : 0 ≤ h₂ := le_trans h0 h12
  have hfl1 : (0 : ℤ) ≤ ⌊h₁⌋ := Int.floor_nonneg.mpr h0
  have hfl2 : (0 : ℤ) ≤ ⌊h₂⌋ := Int.floor_nonneg.mpr h0₂
  have hflle : ⌊h₁⌋ ≤ ⌊h₂⌋ := Int.floor_le_floor h12
  have hclle : ⌈h₁⌉ ≤ ⌈h₂⌉ := Int.ceil_le_ceil h12
  have hflcl2 : ⌊h₂⌋ ≤ ⌈h₂⌉ := Int.floor_le_ceil h₂
  by_cases hcase : ⌈h₁⌉ ≤ ⌊h₂⌋
  · have hhi1 : (⌈h₁⌉).toNat < s.length :=
      lt_of_le_of_lt (Int.toNat_le_toNat (le_trans hcase hflcl2)) hub
    have hlo2 : (⌊h₂⌋).toNat < s.length :=
      lt_of_le_of_lt (Int.toNat_le_toNat hflcl2) hub
    calc interpAt s h₁ ≤ s.getD (⌈h₁⌉).toNat 0 := interpAt_le_hi s hs h₁ h0 hhi1
      _ ≤ s.getD (⌊h₂⌋).toNat 0 :=
          sorted_getD_mono s hs _ _ (Int.toNat_le_toNat hcase) hlo2
      _ ≤ interpAt s h₂ := interpAt_ge_lo s hs h₂ h0₂ hub
  · have hcfl1 : ⌈h₁⌉ ≤ ⌊h₁⌋ + 1 := Int.ceil_le_floor_add_one h₁
    have hflcl1 : ⌊h₁⌋ ≤ ⌈h₁⌉ := Int.floor_le_ceil h₁
    have hfeq : ⌊h₂⌋ = ⌊h₁⌋ := by omega
    by_cases hc2 : ⌈h₂⌉ = ⌊h₂⌋
    · -- `h₂` is an integer, and `h₁ = h₂`.
      have hint : h₂ = ((⌊h₂⌋ : ℤ) : ℚ) := by
        have hle1 := Int.floor_le h₂
        have hle2 := Int.le_ceil h₂
        rw [hc2] at hle2
        exact le_antisymm (by exact_mod_cast hle2) hle1
      have h1eq : h₁ = h₂ := by
        have hfl_le : ((⌊h₁⌋ : ℤ) : ℚ) ≤ h₁ := Int.floor_le h₁
        rw [hfeq] at hint
        rw [hint] at h12 ⊢
        exact le_antisymm h12 (by exact_mod_cast hfl_le)
      rw [h1eq]
    · have hc2' : ⌈h₂⌉ = ⌊h₂⌋ + 1 := by
        have := Int.ceil_le_floor_add_one h₂
        omega
      have hhik : ((⌊h₂⌋ + 1 : ℤ)).toNat < s.length := by
        rw [← hc2']
        exact hub
      have hlok : ((⌊h₂⌋ : ℤ)).toNat < s.length := by
        have : ((⌊h₂⌋ : ℤ)).toNat ≤ ((⌊h₂⌋ + 1 : ℤ)).toNat :=
          Int.toNat_le_toNat (by omega)
        omega
      have hget : s.getD ((⌊h₂⌋ : ℤ)).toNat 0 ≤ s.getD ((⌊h₂⌋ + 1 : ℤ)).toNat 0 :=
        sorted_getD_mono s hs _ _ (Int.toNat_le_toNat (by omega)) hhik
      by_cases hc1 : ⌈h₁⌉ = ⌊h₁⌋
      · -- `h₁` is an integer: its interpolation is exactly the lower cell.
        have hint1 : h₁ = ((⌊h₁⌋ : ℤ) : ℚ) := by
          have hle1 := Int.floor_le h₁
          have hle2 := Int.le_ceil h₁
          rw [hc1] at hle2
          exact le_antisymm (by exact_mod_cast hle2) hle1
        have : interpAt s h₁ = s.getD (⌊h₁⌋).toNat 0 := by
          unfold interpAt
          rw [floor_toNat_cast_eq h₁ h0, ← hint1]
          ring
        rw [this, ← hfeq]
        exact interpAt_ge_lo s hs h₂ h0₂ hub
      · have hc1' : ⌈h₁⌉ = ⌊h₁⌋ + 1 := by omega
        unfold interpAt
        rw [hfeq, hc1', hc2', hfeq]
        have hmul :
            (h₁ - ((⌊h₁⌋.toNat : ℕ) : ℚ)) *
                (s.getD ((⌊h₁⌋ + 1 : ℤ)).toNat 0 - s.getD (⌊h₁⌋).toNat 0) ≤
              (h₂ - ((⌊h₁⌋.toNat : ℕ) : ℚ)) *
                (s.getD ((⌊h₁⌋ + 1 : ℤ)).toNat 0 - s.getD (⌊h₁⌋).toNat 0) := by
          apply mul_le_mul_of_nonneg_right (by linarith)
          have := hfeq ▸ hget
          linarith
        linarith

lemma length_pos_of_ne_nil {l : List ℚ} (hne : l ≠ []) : 0 < l.length :=
  List.length_pos.mpr hne

lemma npPercentile_mono (l : List ℚ) (hne : l ≠ []) (q₁ q₂ : ℚ)
    (hq0 : 0 ≤ q₁) (hq12 : q₁ ≤ q₂) (hq100 : q₂ ≤ 100) :
    npPercentile l q₁ ≤ npPercentile l q₂ := by
  unfold npPercentile
  set s := l.insertionSort (· ≤ ·) with hsdef
  have hs : s.Sorted (· ≤ ·) := List.sorted_insertionSort (· ≤ ·) l
  have hlen : s.length = l.length := List.length_insertionSort (· ≤ ·) l
  have hN : 1 ≤ l.length := length_pos_of_ne_nil hne
  have hNq : (1 : ℚ) ≤ (l.length : ℚ) := by exact_mod_cast hN
  have hsub : (0 : ℚ) ≤ (l.length : ℚ) - 1 := by linarith
  have h0 : 0 ≤ ((l.length : ℚ) - 1) * q₁ / 100 :=
    div_nonneg (mul_nonneg hsub hq0) (by norm_num)
  have h12 : ((l.length : ℚ) - 1) * q₁ / 100 ≤ ((l.length : ℚ) - 1) * q₂ / 100 := by
    have hmul := mul_le_mul_of_nonneg_left hq12 hsub
    linarith
  have hh2 : ((l.length : ℚ) - 1) * q₂ / 100 ≤ (((l.length : ℤ) - 1 : ℤ) : ℚ) := by
    push_cast
    have hmul := mul_le_mul_of_nonneg_left hq100 hsub
    linarith
  have hceil : ⌈((l.length : ℚ) - 1) * q₂ / 100⌉ ≤ (l.length : ℤ) - 1 :=
    Int.ceil_le.mpr hh2
  have hub : (⌈((l.length : ℚ) - 1) * q₂ / 100⌉).toNat < s.length := by
    have h1 := Int.toNat_le_toNat hceil
    rw [hlen]
    omega
  exact interpAt_mono s hs _ _ h0 h12 hub

/-- The skewed ensemble of the C7 counterexample: 40 sub-estimators
predicting 0 and one predicting 100. -/
def skewedEnsemble : EnsembleModel :=
  ⟨List.replicate 40 (fun _ => (0 : ℚ)) ++ [fun _ => (100 : ℚ)]⟩

lemma skewedEnsemble_preds :
    ensemblePredictions skewedEnsemble [] = List.replicate 40 (0 : ℚ) ++ [100] := by
  simp [ensemblePredictions, skewedEnsemble]

lemma skewed_sorted : (List.replicate 40 (0 : ℚ) ++ [100]).Sorted (· ≤ ·) := by
  rw [List.Sorted, List.pairwise_append]
  refine ⟨List.pairwise_replicate.mpr (Or.inr le_rfl),
    List.pairwise_singleton _ _, ?_⟩
  intro x hx y hy
  rw [List.eq_of_mem_replicate hx, List.mem_singleton.mp hy]
  norm_num

/-- C7 counterexample: for the 41-member skewed ensemble, the mean
prediction is `100/41` while the 97.5th-percentile upper bound is `0`
(the interpolation index is `40 · 0.975 = 39`, still inside the zeros),
so `mean ≤ upper_bound` FAILS.  `lower ≤ mean ≤ upper` does not hold for
every ensemble and valid request. -/
theorem confidence_mean_outside_counterexample :
    (predictWithConfidence skewedEnsemble []).1 = 100 / 41 ∧
    (predictWithConfidence skewedEnsemble []).2.2 = 0 ∧
    ¬ ((predictWithConfidence skewedEnsemble []).1 ≤
        (predictWithConfidence skewedEnsemble []).2.2) := by
  have hmean : (predictWithConfidence skewedEnsemble []).1 = 100 / 41 := by
    show npMean (ensemblePredictions skewedEnsemble []) = 100 / 41
    rw [skewedEnsemble_preds]
    unfold npMean
    norm_num
  have hupper : (predictWithConfidence skewedEnsemble []).2.2 = 0 := by
    show npPercentile (ensemblePredictions skewedEnsemble []) (195 / 2) = 0
    rw [skewedEnsemble_preds]
    unfold npPercentile
    rw [List.Sorted.insertionSort_eq skewed_sorted]
    have hlen : (List.replicate 40 (0 : ℚ) ++ [100]).length = 41 := by simp
    rw [hlen]
    have hidx : (((41 : ℕ) : ℚ) - 1) * (195 / 2) / 100 = ((39 : ℤ) : ℚ) := by
      norm_num
    rw [hidx]
    unfold interpAt
    rw [Int.floor_intCast, Int.ceil_intCast]
    have h39 : ((39 : ℤ)).toNat = 39 := rfl
    rw [h39]
    have hget : (List.replicate 40 (0 : ℚ) ++ [100]).getD 39 0 = 0 := by
      rw [List.getD_append _ _ _ _ (by simp)]
      simp [List.getD_eq_getElem ((List.replicate 40 (0 : ℚ))) 0
        (by simp : (39 : ℕ) < (List.replicate 40 (0 : ℚ)).length)]
    rw [hget]
    push_cast
    ring
  refine ⟨hmean, hupper, ?_⟩
  rw [hmean, hupper]
  norm_num

/-- C7 amended: for every ensemble with at least one sub-estimator, the
2.5th-percentile lower bound is ≤ the 97.5th-percentile upper bound, and
the mean prediction lies between every lower and every upper bound of the
sub-estimator predictions (in particular between their min and max) — but,
as the counterexample shows, the mean need not lie inside the percentile
interval itself. -/
theorem confidence_bounds_amended (m : EnsembleModel) (features : List ℚ)
    (hne : ensemblePredictions m features ≠ []) :
    (predictWithConfidence m features).2.1 ≤
      (predictWithConfidence m features).2.2 ∧
    (∀ c, (∀ x ∈ ensemblePredictions m features, x ≤ c) →
      (predictWithConfidence m features).1 ≤ c) ∧
    (∀ c, (∀ x ∈ ensemblePredictions m features, c ≤ x) →
      c ≤ (predictWithConfidence m features).1) := by
  set preds := ensemblePredictions m features with hpreds
  have hNpos : 0 < preds.length := length_pos_of_ne_nil hne
  have hNq : (0 : ℚ) < (preds.length : ℚ) := by exact_mod_cast hNpos
  refine ⟨?_, ?_, ?_⟩
  · exact npPercentile_mono preds hne (5 / 2) (195 / 2) (by norm_num)
      (by norm_num) (by norm_num)
  · intro c hc
    show npMean preds ≤ c
    unfold npMean
    rw [div_le_iff₀ hNq]
    have hsum := List.sum_le_card_nsmul preds c hc
    rw [nsmul_eq_mul] at hsum
    linarith
  · intro c hc
    show c ≤ npMean preds
    unfold npMean
    rw [le_div_iff₀ hNq]
    have hsum := List.card_nsmul_le_sum preds c hc
    rw [nsmul_eq_mul] at hsum
    linarith

/-- Witness for `confidence_bounds_amended`: the three-member ensemble
predicting 1, 2, 3. -/
theorem confidence_bounds_amended_witness :
    ensemblePredictions ⟨[fun _ => (1 : ℚ), fun _ => 2, fun _ => 3]⟩ [] ≠ [] ∧
    ((predictWithConfidence ⟨[fun _ => (1 : ℚ), fun _ => 2, fun _ => 3]⟩ []).2.1 ≤
       (predictWithConfidence ⟨[fun _ => (1 : ℚ), fun _ => 2, fun _ => 3]⟩ []).2.2 ∧
     (∀ c, (∀ x ∈ ensemblePredictions ⟨[fun _ => (1 : ℚ), fun _ => 2, fun _ => 3]⟩ [],
        x ≤ c) →
       (predictWithConfidence ⟨[fun _ => (1 : ℚ), fun _ => 2, fun _ => 3]⟩ []).1 ≤ c) ∧
     (∀ c, (∀ x ∈ ensemblePredictions ⟨[fun _ => (1 : ℚ), fun _ => 2, fun _ => 3]⟩ [],
        c ≤ x) →
       c ≤ (predictWithConfidence ⟨[fun _ => (1 : ℚ), fun _ => 2, fun _ => 3]⟩ []).1)) :=
  ⟨by simp [ensemblePredictions],
   confidence_bounds_amended ⟨[fun _ => (1 : ℚ), fun _ => 2, fun _ => 3]⟩ []
     (by simp [ensemblePredictions])⟩

/-! ## Model bundle persistence
(`ModelTrainer.save_model`/`load_model`,
src/Crop_Yield_Prediction/src/model_training.py lines 186-225, and
`YieldPredictor.load_model`, model_prediction.py lines 22-43).
`joblib.dump`/`joblib.load` are external library calls; they are modelled
as a faithful keyed store (newest write first per path). -/

/-- The dict `{'model': ..., 'preprocessor': ..., 'feature_names': ...}`
handed to `joblib.dump`.  The model and preprocessor payloads are opaque
to the persistence code, hence type parameters. -/
structure SavedModelData (μ π : Type) where
  model : μ
  preprocessor : π
  feature_names : List String
deriving DecidableEq

/-- The filesystem as `joblib` sees it. -/
def FileStore (μ π : Type) : Type := List (String × SavedModelData μ π)

def joblibDump {μ π : Type} (fs : FileStore μ π) (path : String)
    (d : SavedModelData μ π) : FileStore μ π :=
  (path, d) :: fs

def joblibLoad {μ π : Type} (fs : FileStore μ π) (path : String) :
    Option (SavedModelData μ π) :=
  (fs.find? (fun p => p.1 == path)).map Prod.snd

/-- The `ModelTrainer` persistence-relevant state. -/
structure TrainerState (μ π : Type) where
  model : Option μ
  preprocessor : π
  featureNames : List String
deriving DecidableEq

/-- Method `ModelTrainer.save_model`: refuses when no model is trained, else dumps
the three-field dict at the path. -/
def saveModel {μ π : Type} (t : TrainerState μ π) (fs : FileStore μ π)
    (path : String) : FileStore μ π × Bool :=
  match t.model with
  | none => (fs, false)
  | some m => (joblibDump fs path ⟨m, t.preprocessor, t.featureNames⟩, true)

/-- The `YieldPredictor` state (`model`, `preprocessor`, `feature_names`,
`is_loaded`). -/
structure PredictorState (μ π : Type) where
  model : Option μ
  preprocessor : Option π
  featureNames : Option (List String)
  isLoaded : Bool
deriving DecidableEq

/-- Method `YieldPredictor.load_model`: a missing artifact returns `False` leaving
the state unchanged; otherwise the three fields are unpacked and
`is_loaded` set. -/
def loadPredictorModel {μ π : Type} (p : PredictorState μ π)
    (fs : FileStore μ π) (path : String) : PredictorState μ π × Bool :=
  match joblibLoad fs path with
  | none => (p, false)
  | some d =>
    ({ model := some d.model, preprocessor := some d.preprocessor,
       featureNames := some d.feature_names, isLoaded := true }, true)

/-- Method `ModelTrainer.load_model`: unpack the three fields into the trainer. -/
def loadTrainerModel {μ π : Type} (t : TrainerState μ π) (fs : FileStore μ π)
    (path : String) : TrainerState μ π × Bool :=
  match joblibLoad fs path with
  | none => (t, false)
  | some d =>
    ({ model := some d.model, preprocessor := d.preprocessor,
       featureNames := d.feature_names }, true)

/-- C8: saving a trained bundle and loading it back from the same path
succeeds and reproduces all three parts — the fitted model, the
preprocessor (encoder) state, and the ordered feature_names — both through
`YieldPredictor.load_model` and through `ModelTrainer.load_model`. -/
theorem bundle_roundtrip {μ π : Type} (fs : FileStore μ π) (path : String)
    (t : TrainerState μ π) (m : μ) (hm : t.model = some m)
    (p : PredictorState μ π) (t₀ : TrainerState μ π) :
    (saveModel t fs path).2 = true ∧
    loadPredictorModel p (saveModel t fs path).1 path =
      ({ model := some m, preprocessor := some t.preprocessor,
         featureNames := some t.featureNames, isLoaded := true }, true) ∧
    loadTrainerModel t₀ (saveModel t fs path).1 path =
      ({ model := some m, preprocessor := t.preprocessor,
         featureNames := t.featureNames }, true) := by
  refine ⟨by simp [saveModel, hm], ?_, ?_⟩ <;>
    simp [saveModel, hm, joblibDump, joblibLoad, loadPredictorModel,
      loadTrainerModel, List.find?]

/-- Witness for `bundle_roundtrip` at a concrete trained state. -/
theorem bundle_roundtrip_witness :
    (⟨some 5, 77, ["Crop_Encoded", "Area"]⟩ : TrainerState ℕ ℕ).model = some 5 ∧
    ((saveModel (⟨some 5, 77, ["Crop_Encoded", "Area"]⟩ : TrainerState ℕ ℕ) []
        "yield_model.pkl").2 = true ∧
     loadPredictorModel (⟨none, none, none, false⟩ : PredictorState ℕ ℕ)
        (saveModel (⟨some 5, 77, ["Crop_Encoded", "Area"]⟩ : TrainerState ℕ ℕ) []
          "yield_model.pkl").1 "yield_model.pkl" =
       ({ model := some 5, preprocessor := some 77,
          featureNames := some ["Crop_Encoded", "Area"], isLoaded := true }, true) ∧
     loadTrainerModel (⟨none, 0, []⟩ : TrainerState ℕ ℕ)
        (saveModel (⟨some 5, 77, ["Crop_Encoded", "Area"]⟩ : TrainerState ℕ ℕ) []
          "yield_model.pkl").1 "yield_model.pkl" =
       ({ model := some 5, preprocessor := 77,
          featureNames := ["Crop_Encoded", "Area"] }, true)) :=
  ⟨rfl, bundle_roundtrip [] "yield_model.pkl"
    ⟨some 5, 77, ["Crop_Encoded", "Area"]⟩ 5 rfl ⟨none, none, none, false⟩
    ⟨none, 0, []⟩⟩

/-! ## Data cleaning (`DataPreprocessor.clean_data`,
src/Crop_Yield_Prediction/src/data_preprocessing.py lines 49-91) -/

/-- A raw CSV row; `none` is a missing value (NaN). -/
structure RawRow where
  crop : Option String
  state : Option String
  area : Option ℚ
  production : Option ℚ
  yieldVal : Option ℚ
  rainfall : Option ℚ
  fertilizer : Option ℚ
  pesticide : Option ℚ
  season : Option String
deriving DecidableEq, Repr

/-- A raw table: which optional columns exist, and the rows.  `Crop`,
`State`, `Area`, `Production`, `Yield` are always present. -/
structure RawTable where
  hasRainfall : Bool
  hasFertilizer : Bool
  hasPesticide : Bool
  hasSeason : Bool
  rows : List RawRow

/-- Pandas `dropna(subset=critical_columns)`. -/
def dropCritical (rows : List RawRow) : List RawRow :=
  rows.filter (fun r =>
    r.crop.isSome && r.state.isSome && r.area.isSome && r.production.isSome &&
      r.yieldVal.isSome)

/-- pandas `Series.median()`: the 50th percentile (linear interpolation)
of the non-null values. -/
def colMedian (vals : List ℚ) : ℚ := npPercentile vals 50

/-- Pandas `column.fillna(column.median())`. -/
def fillNumeric (get : RawRow → Option ℚ) (set : RawRow → ℚ → RawRow)
    (rows : List RawRow) : List RawRow :=
  rows.map (fun r =>
    if (get r).isSome then r else set r (colMedian (rows.filterMap get)))

/-- Pandas `Season.fillna('Unknown')`. -/
def fillSeason (rows : List RawRow) : List RawRow :=
  rows.map (fun r =>
    if r.season.isSome then r else { r with season := some "Unknown" })

/-- The four `if col in columns: fillna` statements, in source order. -/
def fillOptionalColumns (t : RawTable) (rows : List RawRow) : List RawRow :=
  let r1 :=
    if t.hasRainfall then
      fillNumeric RawRow.rainfall (fun r v => { r with rainfall := some v }) rows
    else rows
  let r2 :=
    if t.hasFertilizer then
      fillNumeric RawRow.fertilizer (fun r v => { r with fertilizer := some v }) r1
    else r1
  let r3 :=
    if t.hasPesticide then
      fillNumeric RawRow.pesticide (fun r v => { r with pesticide := some v }) r2
    else r2
  if t.hasSeason then fillSeason r3 else r3

/-- One pass of the IQR rule for one numeric column: keep the rows whose
value lies in `[Q1 − 1.5·IQR, Q3 + 1.5·IQR]` (a NaN comparison is false in
pandas, so a null value drops the row). -/
def iqrFilter (get : RawRow → Option ℚ) (rows : List RawRow) : List RawRow :=
  rows.filter (fun r =>
    match get r with
    | some v =>
      decide (npPercentile (rows.filterMap get) 25 -
          3 / 2 * (npPercentile (rows.filterMap get) 75 -
            npPercentile (rows.filterMap get) 25) ≤ v) &&
        decide (v ≤ npPercentile (rows.filterMap get) 75 +
          3 / 2 * (npPercentile (rows.filterMap get) 75 -
            npPercentile (rows.filterMap get) 25))
    | none => false)

/-- The `numerical_cols` loop subjects, in source order, restricted to the
columns the table has. -/
def numericGetters (t : RawTable) : List (RawRow → Option ℚ) :=
  [RawRow.area, RawRow.production] ++
    (if t.hasRainfall then [RawRow.rainfall] else []) ++
    (if t.hasFertilizer then [RawRow.fertilizer] else []) ++
    (if t.hasPesticide then [RawRow.pesticide] else []) ++
    [RawRow.yieldVal]

/-- Method `DataPreprocessor.clean_data`: drop rows missing critical columns,
impute optional columns, then apply the IQR outlier rule column by column
sequentially. -/
def cleanData (t : RawTable) : List RawRow :=
  (numericGetters t).foldl (fun rows get => iqrFilter get rows)
    (fillOptionalColumns t (dropCritical t.rows))

lemma length_fillNumeric (get : RawRow → Option ℚ) (set : RawRow → ℚ → RawRow)
    (rows : List RawRow) : (fillNumeric get set rows).length = rows.length := by
  simp [fillNumeric]

lemma length_fillSeason (rows : List RawRow) :
    (fillSeason rows).length = rows.length := by
  simp [fillSeason]

lemma length_fillOptionalColumns (t : RawTable) (rows : List RawRow) :
    (fillOptionalColumns t rows).length = rows.length := by
  unfold fillOptionalColumns
  split_ifs <;> simp [length_fillNumeric, length_fillSeason]

/-- C9: each per-column IQR filter can only shrink the table, and the whole
`clean_data` pipeline never produces more rows than the input had. -/
theorem clean_data_monotone :
    (∀ (get : RawRow → Option ℚ) (rows : List RawRow),
        (iqrFilter get rows).length ≤ rows.length) ∧
    (∀ t : RawTable, (cleanData t).length ≤ t.rows.length) := by
  have hstep : ∀ (get : RawRow → Option ℚ) (rows : List RawRow),
      (iqrFilter get rows).length ≤ rows.length := by
    intro get rows
    exact List.length_filter_le _ _
  refine ⟨hstep, ?_⟩
  intro t
  have hfold : ∀ (gets : List (RawRow → Option ℚ)) (rows : List RawRow),
      (gets.foldl (fun rows get => iqrFilter get rows) rows).length ≤
        rows.length := by
    intro gets
    induction gets with
    | nil => intro rows; exact le_rfl
    | cons g gs ih => intro rows; exact le_trans (ih _) (hstep g rows)
  calc (cleanData t).length
      ≤ (fillOptionalColumns t (dropCritical t.rows)).length := hfold _ _
    _ = (dropCritical t.rows).length := length_fillOptionalColumns _ _
    _ ≤ t.rows.length := List.length_filter_le _ _

end FarmFusion
